import Mathlib

/-!
Verification of the scoped timing helper in `src/utils.py`.

The whole program is one generator-based context manager:

```python
from contextlib import contextmanager
from time import perf_counter

@contextmanager
def timed(msg='', width=40):
    start = perf_counter()
    yield lambda: stop - start
    stop = perf_counter()
    print(f"{msg:<{width}}{stop - start:.3f}s")
```

We embed its observable behaviour shallowly:

* clock readings are exact rationals (`perf_counter` returns real-valued
  seconds; the two readings of one scoped use are the parameters `t0`, `t1`);
* the wrapped `with`-block is a function of the elapsed accessor that either
  returns a value or raises an error (`BlockOutcome`);
* Python's `f"{msg:<{width}}"` pads with spaces on the right and never
  truncates, and raises `ValueError` when `width` is negative (the substituted
  format spec then starts with a sign, which is not allowed for strings);
* Python's `f"{x:.3f}"` prints the value rounded to the nearest thousandth,
  ties to even, with exactly three fractional digits;
* crucially, the `yield` is not wrapped in `try/finally`, so when the block
  raises, `contextmanager.__exit__` throws the exception into the generator
  at the `yield`, the lines `stop = perf_counter()` and `print(...)` never
  run, and the exception propagates unchanged.

A `timed` run records the trace of primitive effects (clock reads, running
the block, printed lines), the propagated result, and the final state of the
local variables `start`/`stop` of the generator frame.
-/

namespace Utils

/-- Character of the decimal digit `d` (for `d < 10`). -/
def digitChar (d : ℕ) : Char := Char.ofNat (48 + d)

/-- Fuel-driven most-significant-digit-first decimal expansion of `n`;
`fuel ≥ n ≥ 1` guarantees enough steps. -/
def decChars : ℕ → ℕ → List Char
  | 0, _ => []
  | _ + 1, 0 => []
  | fuel + 1, n + 1 => decChars fuel ((n + 1) / 10) ++ [digitChar ((n + 1) % 10)]

/-- Decimal rendering of a natural number, as Python renders the integral
part of a float in fixed-point formatting. -/
def natDec (n : ℕ) : String := if n = 0 then "0" else String.mk (decChars n n)

/-- The three fractional digits printed for `m` thousandths (`m < 1000`),
zero-padded on the left to width three, as the `.3f` format requires. -/
def pad3 (m : ℕ) : String :=
  String.mk [digitChar (m / 100 % 10), digitChar (m / 10 % 10), digitChar (m % 10)]

/-- Computable floor of a rational: `⌊q⌋ = q.num / q.den` (`Rat.floor_def`). -/
def floorQ (q : ℚ) : ℤ := q.num / (q.den : ℤ)

/-- Number of thousandths printed by the `.3f` format for the value `q`:
the nearest integer to `1000 * q`, ties to even, which is how Python rounds
a float to a fixed number of decimals. -/
def rnd1000 (q : ℚ) : ℤ :=
  if 1000 * q - (floorQ (1000 * q) : ℚ) < 1 / 2 then floorQ (1000 * q)
  else if (1 / 2 : ℚ) < 1000 * q - (floorQ (1000 * q) : ℚ) then floorQ (1000 * q) + 1
  else if floorQ (1000 * q) % 2 = 0 then floorQ (1000 * q) else floorQ (1000 * q) + 1

/-- Fixed-point rendering, with exactly three decimals, of a nonnegative
count `n` of thousandths. -/
def fixed3 (n : ℤ) : String := natDec (n.toNat / 1000) ++ "." ++ pad3 (n.toNat % 1000)

/-- Model of the f-string fragment `{x:.3f}`: an optional sign followed by
the magnitude rounded to three decimals. -/
def fmt3 (q : ℚ) : String :=
  if q < 0 then "-" ++ fixed3 (rnd1000 (-q)) else fixed3 (rnd1000 q)

/-- Model of the f-string fragment `{msg:<{w}}` for a nonnegative width `w`:
left-justify `msg` in a field of at least `w` characters, padding with
spaces, never truncating. -/
def ljust (s : String) (w : ℕ) : String :=
  s ++ String.mk (List.replicate (w - s.length) ' ')

/-- The single line `print` writes on the normal path of `timed`. -/
def summaryLine (msg : String) (w : ℕ) (elapsed : ℚ) : String :=
  ljust msg w ++ fmt3 elapsed ++ "s"

/-- State of the generator frame's local variables `start` and `stop` during
one timing session; `stop = none` models `stop` not yet being assigned. -/
structure Session where
  start : ℚ
  stop : Option ℚ

/-- The elapsed accessor, the closure `lambda: stop - start` handed to the
`with`-block: it reads whatever `stop` currently holds, and calling it while
`stop` is unassigned raises `NameError` (modelled as `none`). -/
def elapsedAccessor (s : Session) : Option ℚ :=
  s.stop.map (fun t => t - s.start)

/-- The accessor exactly as the block sees it while the block runs: at that
point `start` holds the entry reading `t0` and `stop` is unassigned. -/
def duringAccessor (t0 : ℚ) : Unit → Option ℚ :=
  fun _ => elapsedAccessor ⟨t0, none⟩

/-- Outcome of the wrapped `with`-block: a normal value, or a raised error. -/
inductive BlockOutcome (ε α : Type) where
  | ok : α → BlockOutcome ε α
  | raise : ε → BlockOutcome ε α

/-- Errors that can escape one scoped use of `timed`: an error raised by the
wrapped block, propagated unchanged, or the `ValueError` that the f-string
raises when the substituted format spec `<{width}` carries a negative width. -/
inductive PyErr (ε : Type) where
  | user : ε → PyErr ε
  | valueError : PyErr ε

/-- Primitive observable effects of one scoped use, in order. -/
inductive Event where
  | readClock : ℚ → Event
  | runBlock : Event
  | printLine : String → Event

/-- Everything observable about one scoped use of `timed`: the ordered trace
of effects, the propagated result, and the final generator-frame state. -/
structure TimedRun (ε α : Type) where
  trace : List Event
  result : Except (PyErr ε) α
  session : Session

/-- Lines written to standard output during a run, read off the trace. -/
def TimedRun.output {ε α : Type} (r : TimedRun ε α) : List String :=
  r.trace.filterMap fun e =>
    match e with
    | .printLine s => some s
    | _ => none

/-- Behaviour of the generator body after the block's outcome is known.

On a raise, `contextmanager.__exit__` throws the exception into the
generator at the bare `yield`; with no `try/finally` around it, lines 8-9
(`stop = perf_counter()` and the `print`) are skipped and the exception
propagates unchanged.  On normal completion the generator is resumed:
`stop` is assigned the second clock reading, then the f-string is built
(raising `ValueError` when `width` is negative) and printed. -/
def timedAux {ε α : Type} (msg : String) (width : ℤ) (t0 t1 : ℚ) :
    BlockOutcome ε α → TimedRun ε α
  | .raise e =>
      ⟨[.readClock t0, .runBlock], .error (.user e), ⟨t0, none⟩⟩
  | .ok a =>
      if width < 0 then
        ⟨[.readClock t0, .runBlock, .readClock t1], .error .valueError, ⟨t0, some t1⟩⟩
      else
        ⟨[.readClock t0, .runBlock, .readClock t1,
            .printLine (summaryLine msg width.toNat (t1 - t0))],
          .ok a, ⟨t0, some t1⟩⟩

/-- One scoped use `with timed(msg, width) as elapsed: ...` of the helper.

`t0` and `t1` are the readings the monotonic clock would deliver at the two
`perf_counter()` calls; the block receives the elapsed accessor and either
returns a value or raises. -/
def timed {ε α : Type} (msg : String) (width : ℤ) (t0 t1 : ℚ)
    (block : (Unit → Option ℚ) → BlockOutcome ε α) : TimedRun ε α :=
  timedAux msg width t0 t1 (block (duringAccessor t0))

/-- Scoped use with the source's defaults, `msg=''` and `width=40`. -/
def timedDefault {ε α : Type} (t0 t1 : ℚ)
    (block : (Unit → Option ℚ) → BlockOutcome ε α) : TimedRun ε α :=
  timed "" 40 t0 t1 block

theorem floorQ_eq (q : ℚ) : floorQ q = ⌊q⌋ := Rat.floor_def.symm

theorem length_mk (l : List Char) : (String.mk l).length = l.length := rfl

theorem rnd1000_abs_le (q : ℚ) : |((rnd1000 q : ℤ) : ℚ) - 1000 * q| ≤ 1 / 2 := by
  unfold rnd1000
  rw [floorQ_eq]
  have h1 : ((⌊(1000 * q : ℚ)⌋ : ℤ) : ℚ) ≤ 1000 * q := Int.floor_le _
  have h2 : (1000 * q : ℚ) < ⌊(1000 * q : ℚ)⌋ + 1 := Int.lt_floor_add_one _
  split_ifs <;> (rw [abs_le]; push_cast; constructor <;> linarith)

theorem rnd1000_nonneg (q : ℚ) (h : 0 ≤ q) : 0 ≤ rnd1000 q := by
  unfold rnd1000
  rw [floorQ_eq]
  have hf : (0 : ℤ) ≤ ⌊(1000 * q : ℚ)⌋ :=
    Int.floor_nonneg.2 (mul_nonneg (by norm_num) h)
  split_ifs <;> omega

theorem fmt3_of_nonneg (q : ℚ) (h : 0 ≤ q) : fmt3 q = fixed3 (rnd1000 q) := by
  unfold fmt3
  rw [if_neg (not_lt.2 h)]

theorem decChars_digits :
    ∀ fuel n, ∀ c ∈ decChars fuel n, ∃ d, d < 10 ∧ c = digitChar d := by
  intro fuel
  induction fuel with
  | zero => intro n c hc; simp [decChars] at hc
  | succ fuel ih =>
    intro n c hc
    cases n with
    | zero => simp [decChars] at hc
    | succ m =>
      simp only [decChars, List.mem_append, List.mem_singleton] at hc
      rcases hc with hc | hc
      · exact ih _ c hc
      · exact ⟨(m + 1) % 10, Nat.mod_lt _ (by norm_num), hc⟩

theorem digitChar_ne_space (d : ℕ) (h : d < 10) : digitChar d ≠ ' ' := by
  interval_cases d <;> decide

theorem natDec_head (n : ℕ) :
    ∃ c l, (natDec n).data = c :: l ∧ ∃ d, d < 10 ∧ c = digitChar d := by
  unfold natDec
  split_ifs with h
  · exact ⟨'0', [], rfl, 0, by norm_num, rfl⟩
  · obtain ⟨m, rfl⟩ : ∃ m, n = m + 1 := ⟨n - 1, by omega⟩
    cases hd : decChars m ((m + 1) / 10) with
    | nil =>
      refine ⟨digitChar ((m + 1) % 10), [], ?_, (m + 1) % 10,
        Nat.mod_lt _ (by norm_num), rfl⟩
      simp [decChars, hd]
    | cons c l =>
      have hc : c ∈ decChars m ((m + 1) / 10) := by
        rw [hd]; exact List.mem_cons_self _ _
      obtain ⟨d, hdlt, rfl⟩ := decChars_digits m _ c hc
      refine ⟨digitChar d, l ++ [digitChar ((m + 1) % 10)], ?_, d, hdlt, rfl⟩
      simp [decChars, hd]

theorem fmt3_head (q : ℚ) : ∃ c l, fmt3 q = String.mk (c :: l) ∧ c ≠ ' ' := by
  unfold fmt3
  split_ifs with h
  · refine ⟨'-', (fixed3 (rnd1000 (-q))).data, ?_, by decide⟩
    apply String.ext
    simp
  · obtain ⟨c, l, hdata, d, hdlt, hc⟩ := natDec_head ((rnd1000 q).toNat / 1000)
    refine ⟨c, l ++ ('.' :: (pad3 ((rnd1000 q).toNat % 1000)).data), ?_, ?_⟩
    · apply String.ext
      simp [fixed3, hdata]
    · rw [hc]; exact digitChar_ne_space d hdlt

theorem pad3_length (m : ℕ) : (pad3 m).length = 3 := rfl

theorem pad3_digits (m : ℕ) :
    ∀ c ∈ (pad3 m).data, ∃ d, d < 10 ∧ c = digitChar d := by
  intro c hc
  simp only [pad3, List.mem_cons, List.not_mem_nil, or_false] at hc
  rcases hc with h | h | h
  · exact ⟨m / 100 % 10, Nat.mod_lt _ (by norm_num), h⟩
  · exact ⟨m / 10 % 10, Nat.mod_lt _ (by norm_num), h⟩
  · exact ⟨m % 10, Nat.mod_lt _ (by norm_num), h⟩

theorem ljust_length (s : String) (w : ℕ) :
    (ljust s w).length = s.length + (w - s.length) := by
  simp [ljust, String.length_append, length_mk]

theorem ljust_le (s : String) (w : ℕ) : w ≤ (ljust s w).length := by
  rw [ljust_length]; omega

theorem ljust_of_le (s : String) (w : ℕ) (h : w ≤ s.length) : ljust s w = s := by
  unfold ljust
  have hz : w - s.length = 0 := by omega
  rw [hz]
  exact String.append_empty s

theorem timed_raise {ε α : Type} {msg : String} {w : ℤ} {t0 t1 : ℚ}
    {block : (Unit → Option ℚ) → BlockOutcome ε α} {e : ε}
    (hb : block (duringAccessor t0) = BlockOutcome.raise e) :
    timed msg w t0 t1 block =
      ⟨[.readClock t0, .runBlock], .error (.user e), ⟨t0, none⟩⟩ := by
  unfold timed
  rw [hb]
  rfl

theorem timed_ok {ε α : Type} {msg : String} {w : ℤ} {t0 t1 : ℚ}
    {block : (Unit → Option ℚ) → BlockOutcome ε α} {a : α}
    (hb : block (duringAccessor t0) = BlockOutcome.ok a) (hw : 0 ≤ w) :
    timed msg w t0 t1 block =
      ⟨[.readClock t0, .runBlock, .readClock t1,
          .printLine (summaryLine msg w.toNat (t1 - t0))],
        .ok a, ⟨t0, some t1⟩⟩ := by
  unfold timed
  rw [hb]
  simp [timedAux, not_lt.2 hw]

theorem timed_ok_neg {ε α : Type} {msg : String} {w : ℤ} {t0 t1 : ℚ}
    {block : (Unit → Option ℚ) → BlockOutcome ε α} {a : α}
    (hb : block (duringAccessor t0) = BlockOutcome.ok a) (hw : w < 0) :
    timed msg w t0 t1 block =
      ⟨[.readClock t0, .runBlock, .readClock t1], .error .valueError,
        ⟨t0, some t1⟩⟩ := by
  unfold timed
  rw [hb]
  simp [timedAux, hw]

theorem output_ok {ε α : Type} {msg : String} {w : ℤ} {t0 t1 : ℚ}
    {block : (Unit → Option ℚ) → BlockOutcome ε α} {a : α}
    (hb : block (duringAccessor t0) = BlockOutcome.ok a) (hw : 0 ≤ w) :
    (timed msg w t0 t1 block).output = [summaryLine msg w.toNat (t1 - t0)] := by
  rw [timed_ok hb hw]; rfl

theorem output_raise {ε α : Type} {msg : String} {w : ℤ} {t0 t1 : ℚ}
    {block : (Unit → Option ℚ) → BlockOutcome ε α} {e : ε}
    (hb : block (duringAccessor t0) = BlockOutcome.raise e) :
    (timed msg w t0 t1 block).output = [] := by
  rw [timed_raise hb]; rfl

/-- Claim C1, counterexample: when the wrapped block raises, the bare
`yield` (no `try/finally`) means the stop timestamp is never captured and
no summary line is written, contradicting the claim that exactly one line
is printed and the stop timestamp captured on every exit path. -/
theorem c1_counterexample :
    (timed "" 40 (0 : ℚ) 1
        (fun _ => (BlockOutcome.raise () : BlockOutcome Unit Unit))).output = [] ∧
    (timed "" 40 (0 : ℚ) 1
        (fun _ => (BlockOutcome.raise () : BlockOutcome Unit Unit))).session.stop = none ∧
    (timed "" 40 (0 : ℚ) 1
        (fun _ => (BlockOutcome.raise () : BlockOutcome Unit Unit))).output.length ≠ 1 :=
  ⟨rfl, rfl, by decide⟩

/-- Claim C1, amended: exactly one line is written per scoped use only when
the wrapped block completes normally (and the width is nonnegative); when
the block raises, the error propagates with the stop timestamp never
captured and no line written. -/
theorem c1_theorem {ε α : Type} (msg : String) (w : ℤ) (t0 t1 : ℚ)
    (block : (Unit → Option ℚ) → BlockOutcome ε α) :
    (∀ a, block (duringAccessor t0) = BlockOutcome.ok a → 0 ≤ w →
      (timed msg w t0 t1 block).output = [summaryLine msg w.toNat (t1 - t0)]) ∧
    (∀ e, block (duringAccessor t0) = BlockOutcome.raise e →
      (timed msg w t0 t1 block).output = [] ∧
      (timed msg w t0 t1 block).session.stop = none) := by
  constructor
  · intro a hb hw
    exact output_ok hb hw
  · intro e hb
    exact ⟨output_raise hb, by rw [timed_raise hb]⟩

/-- Claim C1, witness for the amended theorem at concrete inputs. -/
theorem c1_witness :
    (timed "a" 40 (0 : ℚ) 1
        (fun _ => (BlockOutcome.ok () : BlockOutcome Unit Unit))).output
      = [summaryLine "a" (40 : ℤ).toNat ((1 : ℚ) - 0)] ∧
    (timed "a" 40 (0 : ℚ) 1
        (fun _ => (BlockOutcome.raise () : BlockOutcome Unit Unit))).output = [] :=
  ⟨( c1_theorem "a" 40 0 1
      (fun _ => (BlockOutcome.ok () : BlockOutcome Unit Unit))).1 () rfl (by decide),
   (( c1_theorem "a" 40 0 1
      (fun _ => (BlockOutcome.raise () : BlockOutcome Unit Unit))).2 () rfl).1⟩

/-- Claim C2: when the stop reading exceeds the start reading by exactly a
nonnegative duration `D` and the block completes normally, one line is
printed and its elapsed field is the three-decimal rendering of `rnd1000 D`
thousandths, where `rnd1000 D` is within half a thousandth of `1000 * D`,
i.e. the printed elapsed value is `D` rounded to three decimals. -/
theorem c2_theorem {ε α : Type} (msg : String) (w : ℤ) (t0 D : ℚ) (hD : 0 ≤ D)
    (hw : 0 ≤ w) (block : (Unit → Option ℚ) → BlockOutcome ε α) (a : α)
    (hb : block (duringAccessor t0) = BlockOutcome.ok a) :
    (timed msg w t0 (t0 + D) block).output
        = [ljust msg w.toNat ++ fixed3 (rnd1000 D) ++ "s"] ∧
    |((rnd1000 D : ℤ) : ℚ) - 1000 * D| ≤ 1 / 2 := by
  refine ⟨?_, rnd1000_abs_le D⟩
  rw [output_ok hb hw]
  have h : t0 + D - t0 = D := by ring
  simp only [summaryLine]
  rw [h, fmt3_of_nonneg D hD]

/-- Claim C2, witness at `D = 2` seconds. -/
theorem c2_witness :
    (0 : ℚ) ≤ 2 ∧
    ((timed "" 40 (0 : ℚ) ((0 : ℚ) + 2)
        (fun _ => (BlockOutcome.ok () : BlockOutcome Unit Unit))).output
          = [ljust "" (40 : ℤ).toNat ++ fixed3 (rnd1000 2) ++ "s"] ∧
      |((rnd1000 2 : ℤ) : ℚ) - 1000 * 2| ≤ 1 / 2) :=
  ⟨by decide, c2_theorem "" 40 0 2 (by decide) (by decide)
    (fun _ => (BlockOutcome.ok () : BlockOutcome Unit Unit)) () rfl⟩

/-- Claim C3, counterexample: at the negative width `-1` the substituted
format spec starts with a sign, which `format` rejects for strings, so the
use raises `ValueError` and no line carrying a label field is printed at
all; the claim fails at this integer `column_width`. -/
theorem c3_counterexample :
    (timed "x" (-1) (0 : ℚ) 1
        (fun _ => (BlockOutcome.ok () : BlockOutcome Unit Unit))).output = [] ∧
    (timed "x" (-1) (0 : ℚ) 1
        (fun _ => (BlockOutcome.ok () : BlockOutcome Unit Unit))).result
      = Except.error PyErr.valueError :=
  ⟨rfl, rfl⟩

/-- Claim C3, amended: for every label and every NONNEGATIVE integer
`column_width`, the printed label field is at least `column_width`
characters wide, is the label followed by space padding (left-justified),
and a label at least as long as `column_width` is printed in full with no
truncation. -/
theorem c3_theorem {ε α : Type} (s : String) (w : ℤ) (hw : 0 ≤ w) (t0 t1 : ℚ)
    (block : (Unit → Option ℚ) → BlockOutcome ε α) (a : α)
    (hb : block (duringAccessor t0) = BlockOutcome.ok a) :
    (timed s w t0 t1 block).output = [ljust s w.toNat ++ fmt3 (t1 - t0) ++ "s"] ∧
    w.toNat ≤ (ljust s w.toNat).length ∧
    (∃ p, ljust s w.toNat = s ++ p ∧ ∀ c ∈ p.data, c = ' ') ∧
    (w.toNat ≤ s.length → ljust s w.toNat = s) := by
  refine ⟨by rw [output_ok hb hw]; rfl, ljust_le s w.toNat,
    ⟨String.mk (List.replicate (w.toNat - s.length) ' '), rfl, ?_⟩,
    ljust_of_le s w.toNat⟩
  intro c hc
  exact List.eq_of_mem_replicate hc

/-- Claim C3, witness with a label longer than the width. -/
theorem c3_witness :
    (0 : ℤ) ≤ 3 ∧
    ((timed "hello" 3 (0 : ℚ) 1
        (fun _ => (BlockOutcome.ok () : BlockOutcome Unit Unit))).output
          = [ljust "hello" (3 : ℤ).toNat ++ fmt3 ((1 : ℚ) - 0) ++ "s"] ∧
      (3 : ℤ).toNat ≤ (ljust "hello" (3 : ℤ).toNat).length ∧
      (∃ p, ljust "hello" (3 : ℤ).toNat = "hello" ++ p ∧ ∀ c ∈ p.data, c = ' ') ∧
      ((3 : ℤ).toNat ≤ "hello".length → ljust "hello" (3 : ℤ).toNat = "hello")) :=
  ⟨by decide, c3_theorem "hello" 3 (by decide) 0 1
    (fun _ => (BlockOutcome.ok () : BlockOutcome Unit Unit)) () rfl⟩

/-- Claim C4: on normal completion the single printed line is the label
left-justified to the width, immediately followed by the elapsed seconds
with exactly three decimal digits after the point, immediately followed by
the suffix character `s`. -/
theorem c4_theorem {ε α : Type} (msg : String) (w : ℤ) (t0 t1 : ℚ)
    (block : (Unit → Option ℚ) → BlockOutcome ε α) (a : α)
    (hb : block (duringAccessor t0) = BlockOutcome.ok a) (hw : 0 ≤ w) :
    (timed msg w t0 t1 block).output = [ljust msg w.toNat ++ fmt3 (t1 - t0) ++ "s"] ∧
    ∃ ip fp, fmt3 (t1 - t0) = ip ++ "." ++ fp ∧ fp.length = 3 ∧
      ∀ c ∈ fp.data, ∃ d, d < 10 ∧ c = digitChar d := by
  refine ⟨by rw [output_ok hb hw]; rfl, ?_⟩
  unfold fmt3
  split_ifs with h
  · refine ⟨"-" ++ natDec ((rnd1000 (-(t1 - t0))).toNat / 1000),
      pad3 ((rnd1000 (-(t1 - t0))).toNat % 1000), ?_, pad3_length _, pad3_digits _⟩
    apply String.ext
    simp [fixed3]
  · exact ⟨natDec ((rnd1000 (t1 - t0)).toNat / 1000),
      pad3 ((rnd1000 (t1 - t0)).toNat % 1000), rfl, pad3_length _, pad3_digits _⟩

/-- Claim C4, witness at concrete inputs. -/
theorem c4_witness :
    (0 : ℤ) ≤ 40 ∧
    ((timed "load" 40 (0 : ℚ) 1
        (fun _ => (BlockOutcome.ok () : BlockOutcome Unit Unit))).output
          = [ljust "load" (40 : ℤ).toNat ++ fmt3 ((1 : ℚ) - 0) ++ "s"] ∧
      ∃ ip fp, fmt3 ((1 : ℚ) - 0) = ip ++ "." ++ fp ∧ fp.length = 3 ∧
        ∀ c ∈ fp.data, ∃ d, d < 10 ∧ c = digitChar d) :=
  ⟨by decide, c4_theorem "load" 40 0 1
    (fun _ => (BlockOutcome.ok () : BlockOutcome Unit Unit)) () rfl (by decide)⟩

/-- Claim C5: an error raised inside the wrapped block is propagated to the
caller unchanged (as `PyErr.user e` with the very same `e`), never swallowed
or replaced. -/
theorem c5_theorem {ε α : Type} (msg : String) (w : ℤ) (t0 t1 : ℚ) (e : ε)
    (block : (Unit → Option ℚ) → BlockOutcome ε α)
    (hb : block (duringAccessor t0) = BlockOutcome.raise e) :
    (timed msg w t0 t1 block).result = Except.error (PyErr.user e) := by
  rw [timed_raise hb]

/-- Claim C5, witness with a distinguishable error value. -/
theorem c5_witness :
    (timed "" 40 (0 : ℚ) 1
        (fun _ => (BlockOutcome.raise 7 : BlockOutcome ℕ Unit))).result
      = Except.error (PyErr.user 7) :=
  c5_theorem "" 40 0 1 7 (fun _ => (BlockOutcome.raise 7 : BlockOutcome ℕ Unit)) rfl

/-- Claim C6: a default invocation (empty label, width 40) that completes
normally prints a line that begins with exactly 40 space characters and is
immediately followed by the elapsed value, whose first character is not a
space. -/
theorem c6_theorem {ε α : Type} (t0 t1 : ℚ)
    (block : (Unit → Option ℚ) → BlockOutcome ε α) (a : α)
    (hb : block (duringAccessor t0) = BlockOutcome.ok a) :
    (timedDefault t0 t1 block).output
        = [String.mk (List.replicate 40 ' ') ++ fmt3 (t1 - t0) ++ "s"] ∧
    ∃ c l, fmt3 (t1 - t0) = String.mk (c :: l) ∧ c ≠ ' ' := by
  refine ⟨?_, fmt3_head (t1 - t0)⟩
  unfold timedDefault
  rw [output_ok hb (by norm_num)]
  rfl

/-- Claim C6, witness at concrete inputs. -/
theorem c6_witness :
    (timedDefault (0 : ℚ) 1
        (fun _ => (BlockOutcome.ok () : BlockOutcome Unit Unit))).output
      = [String.mk (List.replicate 40 ' ') ++ fmt3 ((1 : ℚ) - 0) ++ "s"] ∧
    ∃ c l, fmt3 ((1 : ℚ) - 0) = String.mk (c :: l) ∧ c ≠ ' ' :=
  c6_theorem 0 1 (fun _ => (BlockOutcome.ok () : BlockOutcome Unit Unit)) () rfl

/-- Claim C7: the accessor handed to the block reads the still-unassigned
`stop`, so every invocation made during the scoped block fails instead of
returning a value. -/
theorem c7_theorem (t0 : ℚ) (u : Unit) :
    duringAccessor t0 u = elapsedAccessor ⟨t0, none⟩ ∧
    elapsedAccessor ⟨t0, none⟩ = none :=
  ⟨rfl, rfl⟩

/-- Claim C8: in every scoped use, on every path, the first effect is the
clock read delivering `t0`, the block runs strictly after it, and `start`
holds exactly that reading. -/
theorem c8_theorem {ε α : Type} (msg : String) (w : ℤ) (t0 t1 : ℚ)
    (block : (Unit → Option ℚ) → BlockOutcome ε α) :
    (timed msg w t0 t1 block).session.start = t0 ∧
    ∃ rest, (timed msg w t0 t1 block).trace
        = Event.readClock t0 :: Event.runBlock :: rest := by
  cases hb : block (duringAccessor t0) with
  | ok a =>
    rcases le_or_lt 0 w with hw | hw
    · rw [timed_ok hb hw]; exact ⟨rfl, _, rfl⟩
    · rw [timed_ok_neg hb hw]; exact ⟨rfl, _, rfl⟩
  | raise e =>
    rw [timed_raise hb]; exact ⟨rfl, _, rfl⟩

/-- Claim C9: after a normal exit the elapsed accessor returns exactly the
unrounded difference `t1 - t0`, and the very same value is the one the
printed line formats. -/
theorem c9_theorem {ε α : Type} (msg : String) (w : ℤ) (t0 t1 : ℚ)
    (block : (Unit → Option ℚ) → BlockOutcome ε α) (a : α)
    (hb : block (duringAccessor t0) = BlockOutcome.ok a) (hw : 0 ≤ w) :
    elapsedAccessor (timed msg w t0 t1 block).session = some (t1 - t0) ∧
    (timed msg w t0 t1 block).output = [ljust msg w.toNat ++ fmt3 (t1 - t0) ++ "s"] := by
  rw [timed_ok hb hw]
  exact ⟨rfl, rfl⟩

/-- Claim C9, witness at concrete inputs. -/
theorem c9_witness :
    elapsedAccessor (timed "" 40 (0 : ℚ) 1
        (fun _ => (BlockOutcome.ok () : BlockOutcome Unit Unit))).session
      = some ((1 : ℚ) - 0) ∧
    (timed "" 40 (0 : ℚ) 1
        (fun _ => (BlockOutcome.ok () : BlockOutcome Unit Unit))).output
      = [ljust "" (40 : ℤ).toNat ++ fmt3 ((1 : ℚ) - 0) ++ "s"] :=
  c9_theorem "" 40 0 1 (fun _ => (BlockOutcome.ok () : BlockOutcome Unit Unit)) ()
    rfl (by decide)

/-- Claim C10: when the monotonic clock gives `t0 ≤ t1` and the use
completes normally, the elapsed value is nonnegative and the printed
thousandths count is nonnegative too. -/
theorem c10_theorem {ε α : Type} (msg : String) (w : ℤ) (t0 t1 : ℚ)
    (block : (Unit → Option ℚ) → BlockOutcome ε α) (a : α)
    (hb : block (duringAccessor t0) = BlockOutcome.ok a) (hw : 0 ≤ w)
    (hc : t0 ≤ t1) :
    0 ≤ t1 - t0 ∧ 0 ≤ rnd1000 (t1 - t0) ∧
    (timed msg w t0 t1 block).output
        = [ljust msg w.toNat ++ fixed3 (rnd1000 (t1 - t0)) ++ "s"] := by
  have hd : (0 : ℚ) ≤ t1 - t0 := by linarith
  refine ⟨hd, rnd1000_nonneg _ hd, ?_⟩
  rw [output_ok hb hw]
  simp only [summaryLine]
  rw [fmt3_of_nonneg _ hd]

/-- Claim C10, witness at concrete inputs. -/
theorem c10_witness :
    (0 : ℚ) ≤ 1 - 0 ∧ 0 ≤ rnd1000 ((1 : ℚ) - 0) ∧
    (timed "" 40 (0 : ℚ) 1
        (fun _ => (BlockOutcome.ok () : BlockOutcome Unit Unit))).output
      = [ljust "" (40 : ℤ).toNat ++ fixed3 (rnd1000 ((1 : ℚ) - 0)) ++ "s"] :=
  c10_theorem "" 40 0 1 (fun _ => (BlockOutcome.ok () : BlockOutcome Unit Unit)) ()
    rfl (by decide) (by decide)

end Utils
